import Mathlib

/-!
Verification development for the ez-snap fiducial-anchored surface
measurement pipeline.

The TypeScript source is shallowly embedded over the rationals: every
JavaScript `number` that the verified claims depend on is modelled as `ℚ`,
`??`-defaulting array reads are modelled with `List.getD`, nullable values
with `Option`, and thrown exceptions with `Except`.  The transcendental
primitives `Math.sqrt` and `Math.atan2` (the latter already scaled to
degrees by the source) are abstracted as explicit function parameters of
the embedded definitions; theorems quantify over them, and concrete
witnesses instantiate them with exact rational evaluators on the inputs
they use.  Presentation-only strings (user-facing guidance messages) are
modelled as inductive reason tags, since no verified property inspects
their text.
-/

namespace EzSnap

/-- A planar point with rational coordinates (camera pixels or surface mm). -/
structure Point where
  x : ℚ
  y : ℚ
  deriving DecidableEq, Repr

/-- Width/height pair in millimeters (config.ts `A4_PHYSICAL_MM` entries). -/
structure Dimensions where
  width : ℚ
  height : ℚ
  deriving DecidableEq, Repr

/-- Physical A4 portrait dimensions in mm (config.ts `A4_PHYSICAL_MM.PORTRAIT`). -/
def a4Portrait : Dimensions := ⟨210, 297⟩

/-- The four QR tracker identities of config.ts `TrackerID`. -/
inductive TrackerID where
  | qr01
  | qr02
  | qr03
  | qr04
  deriving DecidableEq, Repr

/-- Corner pixel coordinates of a decoded QR code (config.ts `QRCodeLocation`). -/
structure QRCodeLocation where
  topLeftCorner : Point
  topRightCorner : Point
  bottomLeftCorner : Point
  bottomRightCorner : Point
  deriving DecidableEq, Repr

/-- A detected fiducial tracker as consumed by the homography estimator
(config.ts `DetectedTracker`). -/
structure DetectedTracker where
  id : TrackerID
  location : QRCodeLocation
  center : Point
  dims : Dimensions
  lastSeen : ℚ
  deriving DecidableEq, Repr

/-- Result of the DLT step (homography.ts `HomographyMatrix`). -/
structure HomographyMatrix where
  matrix : List (List ℚ)
  isValid : Bool
  deriving DecidableEq, Repr

/-- Camera-to-surface transform (config.ts `CoordinateTransform`). -/
structure CoordinateTransform where
  isValid : Bool
  homographyMatrix : Option (List (List ℚ))
  surfaceDimensions : Dimensions
  deriving DecidableEq, Repr

/-- Last-entry-wins lookup of a tracker by identity, mirroring
`new Map(trackers.map(t => [t.id, t])).get(id)` in homography.ts (a JS `Map`
built from pairs keeps the last pair for a duplicated key). -/
def lookupTracker (tid : TrackerID) (trackers : List DetectedTracker) :
    Option DetectedTracker :=
  trackers.foldl (fun acc t => if t.id = tid then some t else acc) none

/-- The fixed millimeter destination points of homography.ts
`calculateHomography`: the A4 corners inset by the 20 mm margin, in the
order top-left, top-right, bottom-right, bottom-left. -/
def qrDstPoints : List (List ℚ) :=
  [[20, 20],
   [a4Portrait.width - 20, 20],
   [a4Portrait.width - 20, a4Portrait.height - 20],
   [20, a4Portrait.height - 20]]

/-- Rows of the 8×9 DLT system `A·h = 0` built by homography.ts
`computeHomographyMatrix`; each of the four correspondences contributes two
rows, with the same `?? [0,0]` / `?? 0` defaulting as the source. -/
def buildDLTRows (srcPoints dstPoints : List (List ℚ)) : List (List ℚ) :=
  (List.range 4).flatMap fun i =>
    let srcPoint := srcPoints.getD i [0, 0]
    let dstPoint := dstPoints.getD i [0, 0]
    let x := srcPoint.getD 0 0
    let y := srcPoint.getD 1 0
    let u := dstPoint.getD 0 0
    let v := dstPoint.getD 1 0
    [[-x, -y, -1, 0, 0, 0, u * x, u * y, u],
     [0, 0, 0, -x, -y, -1, v * x, v * y, v]]

/-- The "simplified DLT solver" of homography.ts `solveDLT`: the source does
not solve the system at all and unconditionally returns the flattened
identity matrix (its own comments flag this as a placeholder for a real
SVD-based solve). -/
def solveDLT (_A : List (List ℚ)) : Option (List ℚ) :=
  some [1, 0, 0, 0, 1, 0, 0, 0, 1]

/-- Embedding of homography.ts `computeHomographyMatrix`. -/
def computeHomographyMatrix (srcPoints dstPoints : List (List ℚ)) :
    HomographyMatrix :=
  if srcPoints.length ≠ 4 ∨ dstPoints.length ≠ 4 then ⟨[], false⟩
  else
    match solveDLT (buildDLTRows srcPoints dstPoints) with
    | none => ⟨[], false⟩
    | some h =>
        ⟨[[h.getD 0 0, h.getD 1 0, h.getD 2 0],
          [h.getD 3 0, h.getD 4 0, h.getD 5 0],
          [h.getD 6 0, h.getD 7 0, h.getD 8 0]], true⟩

/-- Embedding of homography.ts `HomographyTransform.calculateHomography`. -/
def calculateHomography (trackers : List DetectedTracker) :
    CoordinateTransform :=
  if trackers.length < 4 then ⟨false, none, a4Portrait⟩
  else
    match lookupTracker .qr01 trackers, lookupTracker .qr02 trackers,
        lookupTracker .qr03 trackers, lookupTracker .qr04 trackers with
    | some qr01, some qr02, some qr03, some qr04 =>
        let srcPoints := [[qr01.center.x, qr01.center.y],
                          [qr02.center.x, qr02.center.y],
                          [qr03.center.x, qr03.center.y],
                          [qr04.center.x, qr04.center.y]]
        let hm := computeHomographyMatrix srcPoints qrDstPoints
        ⟨hm.isValid, some hm.matrix, a4Portrait⟩
    | _, _, _, _ => ⟨false, none, a4Portrait⟩

/-- Embedding of homography.ts `HomographyTransform.transformPoint` relative
to a given transform: apply `[u,v,w] = H · [x,y,1]` with the source's
`?? 0` matrix reads, returning `none` when the transform is invalid, the
matrix is null, or `|w|` is below the `1e-8` divisor guard. -/
def transformPoint (t : CoordinateTransform) (p : Point) : Option Point :=
  match t.homographyMatrix with
  | none => none
  | some H =>
      if t.isValid = false then none
      else
        let h11 := (H.getD 0 []).getD 0 0
        let h12 := (H.getD 0 []).getD 1 0
        let h13 := (H.getD 0 []).getD 2 0
        let h21 := (H.getD 1 []).getD 0 0
        let h22 := (H.getD 1 []).getD 1 0
        let h23 := (H.getD 1 []).getD 2 0
        let h31 := (H.getD 2 []).getD 0 0
        let h32 := (H.getD 2 []).getD 1 0
        let h33 := (H.getD 2 []).getD 2 0
        let u := h11 * p.x + h12 * p.y + h13
        let v := h21 * p.x + h22 * p.y + h23
        let w := h31 * p.x + h32 * p.y + h33
        if |w| < 1 / 100000000 then none
        else some ⟨u / w, v / w⟩

/-- A zero-area QR location placed at a single point, used to build concrete
tracker records for evaluation. -/
def pointLocation (p : Point) : QRCodeLocation := ⟨p, p, p, p⟩

/-- Concrete tracker with the given identity and center. -/
def mkTracker (tid : TrackerID) (p : Point) (seen : ℚ) : DetectedTracker :=
  ⟨tid, pointLocation p, p, ⟨40, 40⟩, seen⟩

/-- Four trackers whose centers form the axis-aligned, undistorted square
with corners (100,100), (200,100), (200,200), (100,200), in the source's
QR_01..QR_04 corner order. -/
def squareTrackers : List DetectedTracker :=
  [mkTracker .qr01 ⟨100, 100⟩ 0,
   mkTracker .qr02 ⟨200, 100⟩ 0,
   mkTracker .qr03 ⟨200, 200⟩ 0,
   mkTracker .qr04 ⟨100, 200⟩ 0]

end EzSnap

namespace EzSnap

/-- The four grid positions used by the QRTrackerOverlay component. -/
inductive GridPos where
  | topLeft
  | topRight
  | bottomLeft
  | bottomRight
  deriving DecidableEq, Repr

/-- A tracker detected by the QRTrackerOverlay component (its local
`DetectedTracker` interface, keyed by grid position). -/
structure OverlayTracker where
  id : String
  position : GridPos
  location : QRCodeLocation
  center : Point
  lastSeen : ℚ
  deriving DecidableEq, Repr

/-- Alignment status produced by the QRTrackerOverlay component. -/
structure AlignmentStatus where
  isAligned : Bool
  translation : Point
  rotation : ℚ
  scale : ℚ
  missingTrackers : List GridPos
  staleTrackers : List GridPos
  deriving DecidableEq, Repr

/-- The fixed order of grid positions scanned for missing trackers. -/
def allGridPositions : List GridPos :=
  [.topLeft, .topRight, .bottomLeft, .bottomRight]

/-- Positions of trackers whose last detection is older than the 2000 ms
stale threshold at the given time. -/
def overlayStale (currentTime : ℚ) (trackers : List OverlayTracker) :
    List GridPos :=
  (trackers.filter fun t => decide (currentTime - t.lastSeen > 2000)).map
    (·.position)

/-- Grid positions with no detected tracker. -/
def overlayMissing (trackers : List OverlayTracker) : List GridPos :=
  allGridPositions.filter fun p => !(trackers.any fun t => decide (t.position = p))

/-- The trivial "not aligned" status returned by the early exits of
`calculateAlignment`. -/
def notAlignedStatus (missing stale : List GridPos) : AlignmentStatus :=
  ⟨false, ⟨0, 0⟩, 0, 1, missing, stale⟩

/-- Euclidean distance through an explicit square-root evaluator, mirroring
`Math.sqrt(Math.pow(bx-ax,2) + Math.pow(by-ay,2))`. -/
def pointDistance (sqrt : ℚ → ℚ) (a b : Point) : ℚ :=
  sqrt ((b.x - a.x) ^ 2 + (b.y - a.y) ^ 2)

/-- Embedding of QRTrackerOverlay `calculateAlignment`.  `sqrt` models
`Math.sqrt` and `atan2deg` models `Math.atan2(dy,dx) * 180 / Math.PI`
(already converted to degrees); `canvasWidth`/`canvasHeight` are the
dimensions of the component's canvas (`?? 0` when absent), the target
rectangle comes from the component config, and `currentTime` is
`Date.now()` at evaluation.  The early exits (fewer than three trackers,
or no top-left tracker) return the trivial status; otherwise widths,
heights and rotation follow the source's corner-availability branches and
the aligned flag is the source's conjunctive threshold gate. -/
def calculateAlignment (sqrt : ℚ → ℚ) (atan2deg : ℚ → ℚ → ℚ)
    (canvasWidth canvasHeight targetWidth targetHeight currentTime : ℚ)
    (trackers : List OverlayTracker) : AlignmentStatus :=
  let staleTrackers := overlayStale currentTime trackers
  let missingTrackers := overlayMissing trackers
  if trackers.length < 3 then notAlignedStatus missingTrackers staleTrackers
  else
    match trackers.find? fun t => decide (t.position = GridPos.topLeft) with
    | none => notAlignedStatus missingTrackers staleTrackers
    | some topLeft =>
        let topRightOpt := trackers.find? fun t => decide (t.position = GridPos.topRight)
        let bottomLeftOpt := trackers.find? fun t => decide (t.position = GridPos.bottomLeft)
        let bottomRightOpt := trackers.find? fun t => decide (t.position = GridPos.bottomRight)
        let dims : ℚ × ℚ × ℚ :=
          match topRightOpt, bottomLeftOpt, bottomRightOpt with
          | some topRight, some bottomLeft, some _ =>
              (pointDistance sqrt topLeft.center topRight.center,
               pointDistance sqrt topLeft.center bottomLeft.center,
               atan2deg (topRight.center.y - topLeft.center.y)
                 (topRight.center.x - topLeft.center.x))
          | some topRight, some bottomLeft, none =>
              (pointDistance sqrt topLeft.center topRight.center,
               pointDistance sqrt topLeft.center bottomLeft.center,
               atan2deg (topRight.center.y - topLeft.center.y)
                 (topRight.center.x - topLeft.center.x))
          | some topRight, none, _ =>
              (pointDistance sqrt topLeft.center topRight.center, 0,
               atan2deg (topRight.center.y - topLeft.center.y)
                 (topRight.center.x - topLeft.center.x))
          | none, some bottomLeft, _ =>
              (0, pointDistance sqrt topLeft.center bottomLeft.center,
               atan2deg (bottomLeft.center.x - topLeft.center.x)
                 (bottomLeft.center.y - topLeft.center.y) - 90)
          | none, none, _ => (0, 0, 0)
        let currentWidth := dims.1
        let currentHeight := dims.2.1
        let rotation := dims.2.2
        let scale :=
          if currentWidth > 0 then currentWidth / targetWidth
          else if currentHeight > 0 then currentHeight / targetHeight
          else 1
        let translation : Point :=
          ⟨topLeft.center.x - canvasWidth / 2, topLeft.center.y - canvasHeight / 2⟩
        { isAligned := decide (|translation.x| < 50 ∧ |translation.y| < 50 ∧
            |rotation| < 10 ∧ |scale - 1| < 0.2 ∧
            missingTrackers = [] ∧ staleTrackers = []),
          translation := translation, rotation := rotation, scale := scale,
          missingTrackers := missingTrackers, staleTrackers := staleTrackers }

/-- Square-root evaluator used to instantiate the abstract `Math.sqrt`
parameter in concrete witnesses and counterexamples.  It tabulates the
exact square root of every rational on which those concrete inputs force
an evaluation (see `sqrtTable_sound`); its value elsewhere is irrelevant
to any statement below. -/
def sqrtTable (q : ℚ) : ℚ :=
  if q = 0 then 0
  else if q = 9 then 3
  else if q = 36 then 6
  else if q = 81 then 9
  else if q = 81 / 4 then 9 / 2
  else if q = 40000 then 200
  else 0

/-- Degree-valued atan2 evaluator used to instantiate the abstract
`Math.atan2(dy,dx)*180/π` parameter in concrete witnesses: it is exact on
the axis-aligned vectors those witnesses use (and arbitrary elsewhere). -/
def axisAtan2Deg (dy dx : ℚ) : ℚ :=
  if dy = 0 then (if dx ≥ 0 then 0 else 180)
  else if dx = 0 then (if dy > 0 then 90 else -90)
  else 0

/-- Three trackers that are all stale at time 10000 (last seen at 0, beyond
the 2 s threshold), covering three of the four grid positions. -/
def staleTrio : List OverlayTracker :=
  [⟨"TL", .topLeft, pointLocation ⟨0, 0⟩, ⟨0, 0⟩, 0⟩,
   ⟨"TR", .topRight, pointLocation ⟨100, 0⟩, ⟨100, 0⟩, 0⟩,
   ⟨"BL", .bottomLeft, pointLocation ⟨0, 100⟩, ⟨0, 100⟩, 0⟩]

/-- Four fresh trackers forming a 200×200 axis-aligned square whose
top-left corner sits on the center of a 640×480 canvas. -/
def alignedQuad : List OverlayTracker :=
  [⟨"TL", .topLeft, pointLocation ⟨320, 240⟩, ⟨320, 240⟩, 0⟩,
   ⟨"TR", .topRight, pointLocation ⟨520, 240⟩, ⟨520, 240⟩, 0⟩,
   ⟨"BL", .bottomLeft, pointLocation ⟨320, 440⟩, ⟨320, 440⟩, 0⟩,
   ⟨"BR", .bottomRight, pointLocation ⟨520, 440⟩, ⟨520, 440⟩, 0⟩]

/-- Alignment status as consumed by the auto-capture system (config.ts
`AlignmentStatus`, whose missing/stale lists carry tracker identities). -/
structure ACAlignmentStatus where
  isAligned : Bool
  translation : Point
  rotation : ℚ
  scale : ℚ
  missingTrackers : List TrackerID
  staleTrackers : List TrackerID
  detectedCount : ℕ
  deriving DecidableEq, Repr

/-- Auto-capture configuration (autoCapture.ts `AutoCaptureConfig`). -/
structure AutoCaptureConfig where
  minAlignmentQuality : ℚ
  timeBetweenCaptures : ℚ
  movementThreshold : ℚ
  qualityThreshold : ℚ
  deriving DecidableEq, Repr

/-- autoCapture.ts `DEFAULT_AUTO_CAPTURE_CONFIG`. -/
def defaultAutoCaptureConfig : AutoCaptureConfig := ⟨0.8, 2000, 50, 0.7⟩

/-- A capture slot (autoCapture.ts `CapturePosition`); the optional fields
are only populated once the slot is captured. -/
structure CapturePosition where
  id : String
  name : String
  description : String
  priority : ℚ
  captured : Bool
  timestamp : Option ℚ
  imageData : Option String
  trackers : Option (List DetectedTracker)
  alignmentStatus : Option ACAlignmentStatus
  deriving DecidableEq, Repr

/-- A scan session (autoCapture.ts `ScanSession`).  The `userInstructions`
string of the source is user-facing presentation text inspected by no
verified property and is not modelled. -/
structure ScanSession where
  id : String
  startTime : ℚ
  positions : List CapturePosition
  totalCapturesNeeded : ℕ
  capturesCompleted : ℕ
  isComplete : Bool
  confidenceScore : ℚ
  lastCaptureTime : Option ℚ
  deriving DecidableEq, Repr

/-- Mutable state of an `AutoCaptureManager` instance. -/
structure ManagerState where
  config : AutoCaptureConfig
  currentSession : Option ScanSession
  lastCapturePosition : Option Point
  deriving DecidableEq, Repr

/-- A fresh, uncaptured slot with the given identity, texts and priority. -/
def mkPosition (pid pname pdescription : String) (priority : ℚ) :
    CapturePosition :=
  ⟨pid, pname, pdescription, priority, false, none, none, none, none⟩

/-- The fixed ordered target list autoCapture.ts `OPTIMAL_POSITIONS`. -/
def optimalPositions : List CapturePosition :=
  [mkPosition "center_top" "Center Overview"
     "Hold camera directly above center of surface" 1,
   mkPosition "angle_ne" "Northeast Angle"
     "Move to upper-right, slight angle for depth" 2,
   mkPosition "angle_nw" "Northwest Angle"
     "Move to upper-left, slight angle for depth" 2,
   mkPosition "angle_se" "Southeast Angle"
     "Move to lower-right, slight angle for depth" 3,
   mkPosition "angle_sw" "Southwest Angle"
     "Move to lower-left, slight angle for depth" 3,
   mkPosition "center_close" "Center Close-up"
     "Move closer to center for detail capture" 4]

/-- Embedding of `AutoCaptureManager.startSession` called at time `now`:
all slots uncaptured, zero completed captures, not complete, and the
remembered last capture position cleared. -/
def startSession (cfg : AutoCaptureConfig) (now : ℚ) : ManagerState :=
  { config := cfg,
    currentSession := some
      { id := "session_" ++ toString now,
        startTime := now,
        positions := optimalPositions,
        totalCapturesNeeded := optimalPositions.length,
        capturesCompleted := 0,
        isComplete := false,
        confidenceScore := 0,
        lastCaptureTime := none },
    lastCapturePosition := none }

/-- Embedding of `AutoCaptureManager.calculateAlignmentQuality`: zero when
the status is not aligned, otherwise 1.0 minus proportional penalties for
missing (×0.5) and stale (×0.3) markers, floored at zero. -/
def calculateAlignmentQuality (status : ACAlignmentStatus) : ℚ :=
  if status.isAligned = false then 0
  else
    max 0 (1 - (status.missingTrackers.length : ℚ) / 4 * 0.5
             - (status.staleTrackers.length : ℚ) / 4 * 0.3)

/-- Embedding of `AutoCaptureManager.estimateCurrentPosition`: the centroid
of the tracker centers, or null for an empty list. -/
def estimateCurrentPosition (trackers : List DetectedTracker) : Option Point :=
  if trackers.length = 0 then none
  else
    some ⟨(trackers.map fun t => t.center.x).sum / (trackers.length : ℚ),
          (trackers.map fun t => t.center.y).sum / (trackers.length : ℚ)⟩

/-- Embedding of `AutoCaptureManager.calculateDistance` through the
abstract square-root evaluator. -/
def calculateDistance (sqrt : ℚ → ℚ) (pos1 pos2 : Point) : ℚ :=
  sqrt ((pos1.x - pos2.x) ^ 2 + (pos1.y - pos2.y) ^ 2)

/-- Reason tags standing in for the human-readable reason strings of
`processAlignment` (one tag per distinct source message). -/
inductive CaptureReason where
  | noActiveSession
  | qualityTooLow
  | waitBetweenCaptures
  | moveForNewAngle
  | readyToCapture
  deriving DecidableEq, Repr

/-- Decision returned by `processAlignment`. -/
structure CaptureDecision where
  shouldCapture : Bool
  reason : CaptureReason
  deriving DecidableEq, Repr

/-- Embedding of `AutoCaptureManager.processAlignment`.  The three source
gates in order: alignment quality below the minimum, too little time since
the last capture (the source reads `lastCaptureTime && elapsed < spacing`,
so a JS-falsy stored time of 0 skips the gate — modelled by the `t ≠ 0`
conjunct), and, when both a previous capture position and a current
centroid exist, insufficient movement.  The video element argument of the
source does not influence the decision and is not modelled. -/
def processAlignment (sqrt : ℚ → ℚ) (st : ManagerState)
    (alignmentStatus : ACAlignmentStatus) (trackers : List DetectedTracker)
    (now : ℚ) : CaptureDecision :=
  match st.currentSession with
  | none => ⟨false, .noActiveSession⟩
  | some session =>
      if session.isComplete then ⟨false, .noActiveSession⟩
      else
        let alignmentQuality := calculateAlignmentQuality alignmentStatus
        if alignmentQuality < st.config.minAlignmentQuality then
          ⟨false, .qualityTooLow⟩
        else
          let timeBlocked :=
            match session.lastCaptureTime with
            | none => false
            | some t =>
                decide (t ≠ 0) && decide (now - t < st.config.timeBetweenCaptures)
          if timeBlocked then ⟨false, .waitBetweenCaptures⟩
          else
            match st.lastCapturePosition, estimateCurrentPosition trackers with
            | some lastPos, some currentPos =>
                if calculateDistance sqrt currentPos lastPos <
                    st.config.movementThreshold then
                  ⟨false, .moveForNewAngle⟩
                else ⟨true, .readyToCapture⟩
            | _, _ => ⟨true, .readyToCapture⟩

/-- The per-call data frozen into a slot by `executeCapture`: the JPEG data
URL produced from the video element (environment-supplied here), and the
alignment status, trackers and `Date.now()` at capture time. -/
structure CaptureInput where
  imageData : String
  alignmentStatus : ACAlignmentStatus
  trackers : List DetectedTracker
  now : ℚ
  deriving DecidableEq, Repr

/-- Freeze the first not-yet-captured slot (the source's
`positions.find(pos => !pos.captured)` followed by in-place mutation),
returning the updated list or `none` when every slot is captured. -/
def captureFirstFree (inp : CaptureInput) :
    List CapturePosition → Option (List CapturePosition)
  | [] => none
  | p :: rest =>
      if p.captured then (captureFirstFree inp rest).map (p :: ·)
      else
        some ({ p with
                  captured := true
                  timestamp := some inp.now
                  imageData := some inp.imageData
                  trackers := some inp.trackers
                  alignmentStatus := some inp.alignmentStatus } :: rest)

/-- Embedding of `AutoCaptureManager.calculateSessionConfidence` (evaluated
on the session state after the slot update, as in the source). -/
def sessionConfidence (session : ScanSession) : ℚ :=
  let completed := session.positions.filter fun p => p.captured
  if completed.length = 0 then 0
  else
    let avgQuality :=
      (completed.map fun p =>
        match p.alignmentStatus with
        | none => 0
        | some a => calculateAlignmentQuality a).sum / (completed.length : ℚ)
    avgQuality * ((completed.length : ℚ) / (session.totalCapturesNeeded : ℚ))

/-- Embedding of `AutoCaptureManager.executeCapture`.  The canvas/2-D
context is modelled as always available and the captured JPEG data URL is
supplied in the input (the source only fails on a missing session, a
missing context, a fully captured position list, or a thrown DOM error);
on success the first free slot is frozen, the completed count increments,
the capture time and session confidence are updated, the session becomes
complete once the completed count reaches the needed count, and the last
capture position is refreshed when a tracker centroid exists. -/
def executeCapture (st : ManagerState) (inp : CaptureInput) :
    Bool × ManagerState :=
  match st.currentSession with
  | none => (false, st)
  | some session =>
      match captureFirstFree inp session.positions with
      | none => (false, st)
      | some newPositions =>
          let completed := session.capturesCompleted + 1
          let sBase := { session with
            positions := newPositions
            capturesCompleted := completed
            lastCaptureTime := some inp.now }
          let s2 := { sBase with confidenceScore := sessionConfidence sBase }
          let s3 :=
            if s2.totalCapturesNeeded ≤ completed then
              { s2 with isComplete := true }
            else s2
          let newLastPos :=
            match estimateCurrentPosition inp.trackers with
            | some c => some c
            | none => st.lastCapturePosition
          (true, { st with
            currentSession := some s3
            lastCapturePosition := newLastPos })

/-- Run a sequence of `executeCapture` calls, returning the final manager
state and the number of calls that succeeded. -/
def runCaptures (st : ManagerState) :
    List CaptureInput → ManagerState × ℕ
  | [] => (st, 0)
  | inp :: rest =>
      let step := executeCapture st inp
      let tail := runCaptures step.2 rest
      (tail.1, (if step.1 then 1 else 0) + tail.2)

/-- Number of captured slots in a position list. -/
def countCaptured (ps : List CapturePosition) : ℕ :=
  (ps.filter fun p => p.captured).length

/-- The alignment-quality formula exactly as the claim for the capture gate
words it: "1.0 minus proportional penalties for missing and stale markers",
with no dependence on the aligned flag.  Compare `calculateAlignmentQuality`,
which additionally zeroes the score when the status is not aligned. -/
def claimAlignmentQuality (status : ACAlignmentStatus) : ℚ :=
  1 - (status.missingTrackers.length : ℚ) / 4 * 0.5
    - (status.staleTrackers.length : ℚ) / 4 * 0.3

/-- A misaligned status with no missing and no stale markers (reachable
when only the translation/rotation/scale gate fails). -/
def misalignedCleanStatus : ACAlignmentStatus := ⟨false, ⟨100, 0⟩, 0, 1, [], [], 4⟩

/-- An aligned status with no missing and no stale markers. -/
def alignedCleanStatus : ACAlignmentStatus := ⟨true, ⟨0, 0⟩, 0, 1, [], [], 4⟩

/-- A concrete active, incomplete session with no prior capture. -/
def demoSession : ScanSession :=
  ⟨"s", 0, optimalPositions, optimalPositions.length, 0, false, 0, none⟩

/-- Manager state holding `demoSession` and no last capture position. -/
def demoState : ManagerState := ⟨defaultAutoCaptureConfig, some demoSession, none⟩

/-- A capture input reused for iterated capture runs. -/
def demoInput : CaptureInput := ⟨"data:image/jpeg;demo", alignedCleanStatus, [], 1000⟩

/-- Completed-capture count of the manager's current session (0 when no
session is active). -/
def sessionCompleted (st : ManagerState) : ℕ :=
  match st.currentSession with
  | some s => s.capturesCompleted
  | none => 0

/-- Invariant connecting a manager state to its session's bookkeeping: a
session with `n` target slots is present, its completed counter equals the
number of captured slots, and the completion flag is exactly "all `n`
captures done". -/
def SessionInv (n : ℕ) (st : ManagerState) : Prop :=
  ∃ s : ScanSession,
    st.currentSession = some s ∧
    s.positions.length = n ∧
    s.totalCapturesNeeded = n ∧
    s.capturesCompleted = countCaptured s.positions ∧
    s.isComplete = decide (n ≤ s.capturesCompleted)

/-- A detected cone (config.ts `DetectedCone`): camera center, optional
surface position in mm, pixel radius, confidence and last-seen time. -/
structure DetectedCone where
  id : String
  center : Point
  surfacePosition : Option Point
  radius : ℚ
  confidence : ℚ
  lastSeen : ℚ
  deriving DecidableEq, Repr

/-- Per-image processing result (imageProcessing.ts
`ImageProcessingResult`); its wall-clock `processingTime` field is
environmental and not modelled. -/
structure ImageProcessingResult where
  imageId : String
  cones : List DetectedCone
  quality : ℚ
  transformMatrix : CoordinateTransform
  deriving DecidableEq, Repr

/-- A consensus cluster (imageProcessing.ts `ClusteredCone`). -/
structure ClusteredCone where
  id : String
  position : Point
  confidence : ℚ
  supportingDetections : List DetectedCone
  positionVariance : ℚ
  deriving DecidableEq, Repr

/-- Result of the consensus pass (imageProcessing.ts `ConsensusAnalysis`). -/
structure ConsensusAnalysis where
  totalDetections : ℕ
  clusteredCones : List ClusteredCone
  outlierDetections : List DetectedCone
  spatialAccuracy : ℚ
  deriving DecidableEq, Repr

/-- Aggregate quality metrics (imageProcessing.ts `QualityMetrics`). -/
structure QualityMetrics where
  overallQuality : ℚ
  spatialConsistency : ℚ
  detectionReliability : ℚ
  imageQualityAverage : ℚ
  deriving DecidableEq, Repr

/-- Consensus-processing configuration (imageProcessing.ts
`ProcessingConfig`). -/
structure ProcessingConfig where
  clusteringRadius : ℚ
  minConsensus : ℚ
  outlierThreshold : ℚ
  qualityWeightFactor : ℚ
  deriving DecidableEq, Repr

/-- imageProcessing.ts `DEFAULT_PROCESSING_CONFIG`. -/
def defaultProcessingConfig : ProcessingConfig := ⟨15, 2, 25, 0.3⟩

/-- Embedding of `ImageProcessor.calculateWeightedPosition`: fold the
members exactly as the source loop does, skipping members without a
surface position, then divide the weighted coordinate sums by the total
confidence weight. -/
def calculateWeightedPosition (detections : List DetectedCone) : Point :=
  let acc := detections.foldl
    (fun (acc : ℚ × ℚ × ℚ) d =>
      match d.surfacePosition with
      | none => acc
      | some pos =>
          (acc.1 + d.confidence, acc.2.1 + pos.x * d.confidence,
           acc.2.2 + pos.y * d.confidence))
    (0, 0, 0)
  ⟨acc.2.1 / acc.1, acc.2.2 / acc.1⟩

/-- The non-null surface positions of a detection list (the source's
`map(surfacePosition).filter(non-null)`). -/
def conePositions (detections : List DetectedCone) : List Point :=
  detections.filterMap fun d => d.surfacePosition

/-- Embedding of `ImageProcessor.calculatePositionVariance`: zero for
fewer than two members or fewer than two surface positions, otherwise the
mean distance of the positions from their unweighted arithmetic
centroid. -/
def calculatePositionVariance (sqrt : ℚ → ℚ)
    (detections : List DetectedCone) : ℚ :=
  if detections.length < 2 then 0
  else
    let positions := conePositions detections
    if positions.length < 2 then 0
    else
      let centroid : Point :=
        ⟨(positions.map fun p => p.x).sum / (positions.length : ℚ),
         (positions.map fun p => p.y).sum / (positions.length : ℚ)⟩
      (positions.map fun pos => calculateDistance sqrt pos centroid).sum /
        (positions.length : ℚ)

/-- Embedding of `ImageProcessor.calculateClusterConfidence`: mean member
confidence, plus a consensus bonus capped at 0.3, minus a variance penalty
capped at 0.2, floored at zero (the source has no upper clamp). -/
def calculateClusterConfidence (sqrt : ℚ → ℚ)
    (detections : List DetectedCone) : ℚ :=
  if detections.length = 0 then 0
  else
    let avgConfidence :=
      (detections.map fun d => d.confidence).sum / (detections.length : ℚ)
    let consensusBonus := min ((detections.length : ℚ) / 4) 0.3
    let variancePenalty :=
      min (calculatePositionVariance sqrt detections / 50) 0.2
    max 0 (avgConfidence + consensusBonus - variancePenalty)

/-- Embedding of `ImageProcessor.calculateSpatialAccuracy`. -/
def calculateSpatialAccuracy (clusteredCones : List ClusteredCone) : ℚ :=
  if clusteredCones.length = 0 then 0
  else
    max 0 (1 - ((clusteredCones.map fun c => c.positionVariance).sum /
      (clusteredCones.length : ℚ)) / 30)

/-- One iteration of the greedy clustering loop of
`ImageProcessor.performConsensusAnalysis`: skip the detection if already
used or without a surface position; otherwise gather every unused
positioned detection within the clustering radius, and accept the cluster
(recording its weighted position, confidence and variance, and marking its
members used) when it reaches the minimum consensus count. -/
def consensusStep (sqrt : ℚ → ℚ) (cfg : ProcessingConfig)
    (allDetections : List DetectedCone)
    (acc : List ClusteredCone × List String) (detection : DetectedCone) :
    List ClusteredCone × List String :=
  if detection.id ∈ acc.2 then acc
  else
    match detection.surfacePosition with
    | none => acc
    | some dp =>
        let cluster := allDetections.filter fun other =>
          decide (other.id ∉ acc.2) &&
            match other.surfacePosition with
            | none => false
            | some op =>
                decide (calculateDistance sqrt dp op ≤ cfg.clusteringRadius)
        if cfg.minConsensus ≤ (cluster.length : ℚ) then
          (acc.1 ++ [⟨"cone_" ++ toString (acc.1.length + 1),
             calculateWeightedPosition cluster,
             calculateClusterConfidence sqrt cluster,
             cluster,
             calculatePositionVariance sqrt cluster⟩],
           acc.2 ++ cluster.map fun d => d.id)
        else acc

/-- Embedding of `ImageProcessor.performConsensusAnalysis`: collect every
detection with a surface position across all per-image results, run the
greedy clustering fold, and report the unclustered detections as
outliers. -/
def performConsensusAnalysis (sqrt : ℚ → ℚ) (cfg : ProcessingConfig)
    (imageResults : List ImageProcessingResult) : ConsensusAnalysis :=
  let allDetections := imageResults.flatMap fun r =>
    r.cones.filter fun c => c.surfacePosition.isSome
  let final := allDetections.foldl (consensusStep sqrt cfg allDetections) ([], [])
  { totalDetections := allDetections.length,
    clusteredCones := final.1,
    outlierDetections := allDetections.filter fun det => decide (det.id ∉ final.2),
    spatialAccuracy := calculateSpatialAccuracy final.1 }

/-- Embedding of `ImageProcessor.calculateQualityMetrics`. -/
def calculateQualityMetrics (imageResults : List ImageProcessingResult)
    (consensus : ConsensusAnalysis) : QualityMetrics :=
  let avgImageQuality :=
    (imageResults.map fun r => r.quality).sum / (imageResults.length : ℚ)
  let detectionReliability :=
    if 0 < consensus.clusteredCones.length then
      (consensus.clusteredCones.map fun c => c.confidence).sum /
        (consensus.clusteredCones.length : ℚ)
    else 0
  ⟨(avgImageQuality + detectionReliability + consensus.spatialAccuracy) / 3,
   consensus.spatialAccuracy, detectionReliability, avgImageQuality⟩

/-- Final result of `ImageProcessor.processScanSession` (wall-clock
`processingTime` is environmental and not modelled). -/
structure ProcessingResult where
  cones : List DetectedCone
  confidence : ℚ
  sourceImages : ℕ
  perImageResults : List ImageProcessingResult
  consensusAnalysis : ConsensusAnalysis
  qualityMetrics : QualityMetrics
  deriving DecidableEq, Repr

/-- Embedding of `ImageProcessor.processScanSession`.  Thrown errors are
modelled as `Except.error` with the source's message.  The DOM-bound
per-image pipeline (`processIndividualImage`: image decoding, canvas
drawing, cone detection) is abstracted as the environment function
`processImage`, with `none` standing for a per-image exception that the
source's try/catch skips; `now` models `Date.now()` for the final cones'
`lastSeen`.  The function never mutates its session argument (in the
source the incompleteness check throws before anything else happens and
the session is read-only throughout), so a failed call leaves the session
unchanged. -/
def processScanSession (sqrt : ℚ → ℚ) (cfg : ProcessingConfig)
    (processImage : CapturePosition → Option ImageProcessingResult)
    (now : ℚ) (session : ScanSession) : Except String ProcessingResult :=
  if session.isComplete = false then
    Except.error "Scan session is not complete"
  else
    let validCaptures := session.positions.filter fun pos =>
      pos.captured && pos.imageData.isSome && pos.trackers.isSome &&
        pos.alignmentStatus.isSome
    if validCaptures.length = 0 then
      Except.error "No valid captures found in session"
    else
      let imageResults := validCaptures.filterMap processImage
      if imageResults.length = 0 then
        Except.error "Failed to process any images"
      else
        let consensus := performConsensusAnalysis sqrt cfg imageResults
        let qualityMetrics := calculateQualityMetrics imageResults consensus
        let finalCones := consensus.clusteredCones.map fun cluster =>
          (⟨cluster.id, ⟨0, 0⟩, some cluster.position, 10,
            cluster.confidence, now⟩ : DetectedCone)
        Except.ok ⟨finalCones, qualityMetrics.overallQuality,
          imageResults.length, imageResults, consensus, qualityMetrics⟩

/-- The cluster position formula in the claim's words: the
confidence-weighted average of the members' surface positions. -/
def specWeightedAveragePosition (detections : List DetectedCone) : Point :=
  let members := detections.filterMap fun d =>
    d.surfacePosition.map fun p => (p, d.confidence)
  let totalWeight := (members.map fun m => m.2).sum
  ⟨(members.map fun m => m.1.x * m.2).sum / totalWeight,
   (members.map fun m => m.1.y * m.2).sum / totalWeight⟩

/-- Mean distance of a list of points from their unweighted arithmetic
centroid (the quantity the source's variance actually computes). -/
def specMeanDistanceFromCentroid (sqrt : ℚ → ℚ) (positions : List Point) : ℚ :=
  let centroid : Point :=
    ⟨(positions.map fun p => p.x).sum / (positions.length : ℚ),
     (positions.map fun p => p.y).sum / (positions.length : ℚ)⟩
  (positions.map fun p => calculateDistance sqrt p centroid).sum /
    (positions.length : ℚ)

/-- Mean distance of the members' surface positions from the
confidence-weighted centroid — the quantity the claim says the variance
equals. -/
def specMeanDistanceFromWeightedCentroid (sqrt : ℚ → ℚ)
    (detections : List DetectedCone) : ℚ :=
  let centroid := specWeightedAveragePosition detections
  let positions := conePositions detections
  (positions.map fun p => calculateDistance sqrt p centroid).sum /
    (positions.length : ℚ)

/-- The cluster confidence formula in the amended claim's words: mean
member confidence plus the consensus bonus `min(count/4, 0.3)` minus the
variance penalty `min(variance/50, 0.2)`, floored at zero. -/
def specClusterConfidence (sqrt : ℚ → ℚ)
    (detections : List DetectedCone) : ℚ :=
  max 0 ((detections.map fun d => d.confidence).sum / (detections.length : ℚ)
    + min ((detections.length : ℚ) / 4) 0.3
    - min (calculatePositionVariance sqrt detections / 50) 0.2)

/-- Three positioned detections forming one accepted cluster whose
confidence weights differ: two at (0,0) with confidence 1/2 and one at
(9,0) with confidence 1. -/
def cxCones : List DetectedCone :=
  [⟨"a", ⟨0, 0⟩, some ⟨0, 0⟩, 5, 1/2, 0⟩,
   ⟨"b", ⟨0, 0⟩, some ⟨0, 0⟩, 5, 1/2, 0⟩,
   ⟨"c", ⟨9, 0⟩, some ⟨9, 0⟩, 5, 1, 0⟩]

/-- Four coincident positioned detections with full confidence. -/
def quadCones : List DetectedCone :=
  [⟨"a", ⟨0, 0⟩, some ⟨0, 0⟩, 5, 1, 0⟩,
   ⟨"b", ⟨0, 0⟩, some ⟨0, 0⟩, 5, 1, 0⟩,
   ⟨"c", ⟨0, 0⟩, some ⟨0, 0⟩, 5, 1, 0⟩,
   ⟨"d", ⟨0, 0⟩, some ⟨0, 0⟩, 5, 1, 0⟩]

/-- A single per-image result wrapping the given cones (the transform and
quality fields do not influence the consensus pass). -/
def mkImageResult (cones : List DetectedCone) : ImageProcessingResult :=
  ⟨"img1", cones, 1, ⟨false, none, a4Portrait⟩⟩

/-- The concrete cluster produced by the consensus pass on `cxCones`:
weighted position (9/2,0), confidence 2/3 + 3/10 - 4/50 = 133/150, and
unweighted-centroid variance 4. -/
def cxCluster : ClusteredCone := ⟨"cone_1", ⟨9/2, 0⟩, 133/150, cxCones, 4⟩

/-- The concrete cluster produced by the consensus pass on `quadCones`:
confidence 1 + min(4/4, 0.3) - 0 = 13/10, exceeding 1. -/
def quadCluster : ClusteredCone := ⟨"cone_1", ⟨0, 0⟩, 13/10, quadCones, 0⟩

/-- A circle candidate found by `ConeDetector.detectCircles`. -/
structure Circle where
  x : ℤ
  y : ℤ
  radius : ℤ
  confidence : ℚ
  deriving DecidableEq, Repr

/-- Detection parameters (coneDetection.ts `ConeDetectionParams`).  The
source stores them as JS numbers; the radii are integral in every
configuration (config.ts gives 5 and 50) and serve as integer loop
bounds. -/
structure ConeDetectionParams where
  minRadius : ℤ
  maxRadius : ℤ
  confidenceThreshold : ℚ
  blurKernel : ℤ
  cannyLower : ℚ
  cannyUpper : ℚ
  deriving DecidableEq, Repr

/-- coneDetection.ts `DEFAULT_DETECTION_PARAMS` (radii and threshold from
`CONE_CONFIG`). -/
def defaultDetectionParams : ConeDetectionParams := ⟨5, 50, 0.6, 9, 50, 150⟩

/-- The values taken by a loop counter `for (v = start; v < stop; v += step)`
with a positive integer step. -/
def stepsBelow (start stop : ℤ) (step : ℕ) : List ℤ :=
  (List.range (((stop - start).toNat + step - 1) / step)).map fun k =>
    start + (step : ℤ) * (k : ℤ)

/-- The candidate list built by the scanning loops of
`ConeDetector.detectCircles` before sorting: centers on a coarse grid of
step 5 inset by `maxRadius`, radii from `minRadius` to `maxRadius` in steps
of 2, keeping a candidate when its confidence exceeds the threshold and it
does not overlap an already kept circle (centers closer than 0.7 times the
summed radii).  `calcConf x y r` abstracts
`calculateCircleConfidence(edges, x, y, r)`, the source's trigonometric
edge-sampling score over the fixed edge map, and `sqrt` abstracts
`Math.sqrt` in the overlap test. -/
def detectCirclesFound (calcConf : ℤ → ℤ → ℤ → ℚ) (sqrt : ℚ → ℚ)
    (params : ConeDetectionParams) (width height : ℤ) : List Circle :=
  let ys := stepsBelow params.maxRadius (height - params.maxRadius) 5
  let xs := stepsBelow params.maxRadius (width - params.maxRadius) 5
  let rs := stepsBelow params.minRadius (params.maxRadius + 1) 2
  (ys.flatMap fun y => xs.flatMap fun x => rs.map fun r => (y, x, r)).foldl
    (fun circles t =>
      let confidence := calcConf t.2.1 t.1 t.2.2
      if params.confidenceThreshold < confidence then
        let isOverlapping := circles.any fun existing =>
          decide (sqrt (((t.2.1 : ℚ) - (existing.x : ℚ)) ^ 2 +
              ((t.1 : ℚ) - (existing.y : ℚ)) ^ 2) <
            ((t.2.2 : ℚ) + (existing.radius : ℚ)) * 0.7)
        if isOverlapping then circles
        else circles ++ [⟨t.2.1, t.1, t.2.2, confidence⟩]
      else circles) []

/-- Embedding of `ConeDetector.detectCircles`: the found candidates sorted
by descending confidence (JS `sort((a,b) => b.confidence - a.confidence)`,
stable in modern engines, modelled by a stable merge sort) and truncated to
the top 10. -/
def detectCircles (calcConf : ℤ → ℤ → ℤ → ℚ) (sqrt : ℚ → ℚ)
    (params : ConeDetectionParams) (width height : ℤ) : List Circle :=
  ((detectCirclesFound calcConf sqrt params width height).mergeSort fun a b =>
    decide (b.confidence ≤ a.confidence)).take 10

/-- C1: the claim says the estimated homography applied to each source
corner reproduces its millimeter destination corner within a small
tolerance.  The code cannot satisfy this: `solveDLT` is a placeholder that
ignores the linear system and returns the identity, so `transformPoint`
returns every source corner unchanged.  Evaluated at an axis-aligned
square of tracker centers, the transform is reported valid with the
identity matrix, the first source corner (100,100) is mapped to itself,
and its x-coordinate alone misses the destination corner (20,20) by 80 mm
— beyond any small tolerance. -/
theorem dlt_stub_fails_square_roundtrip :
    (calculateHomography squareTrackers).isValid = true ∧
    (calculateHomography squareTrackers).homographyMatrix =
      some [[1, 0, 0], [0, 1, 0], [0, 0, 1]] ∧
    transformPoint (calculateHomography squareTrackers) ⟨100, 100⟩ =
      some ⟨100, 100⟩ ∧
    qrDstPoints.getD 0 [] = [20, 20] ∧
    |(100 : ℚ) - 20| = 80 := by
  have hH : calculateHomography squareTrackers =
      ⟨true, some [[1, 0, 0], [0, 1, 0], [0, 0, 1]], a4Portrait⟩ := by decide
  refine ⟨by decide, by decide, ?_, by decide, by norm_num⟩
  rw [hH]
  norm_num [transformPoint]

/-- C4: `calculateHomography` reports a valid transform only when at least
four trackers are supplied and every one of the four corner identities is
present among them (so that exactly four correspondences, one per corner,
are available to the solve); with fewer than four trackers, or with any
corner identity absent, it returns an invalid transform with a null
homography matrix. -/
theorem homography_valid_requires_four_corners (trackers : List DetectedTracker) :
    ((calculateHomography trackers).isValid = true →
      4 ≤ trackers.length ∧
        ∀ tid : TrackerID, (lookupTracker tid trackers).isSome) ∧
    ((trackers.length < 4 ∨ ∃ tid : TrackerID, lookupTracker tid trackers = none) →
      (calculateHomography trackers).isValid = false ∧
        (calculateHomography trackers).homographyMatrix = none) := by
  constructor
  · intro hvalid
    unfold calculateHomography at hvalid
    split at hvalid
    · simp at hvalid
    · rename_i hlen
      constructor
      · omega
      · intro tid
        split at hvalid
        · rename_i h1 h2 h3 h4
          cases tid <;> simp [h1, h2, h3, h4]
        · simp at hvalid
  · intro habsent
    unfold calculateHomography
    rcases habsent with hlen | ⟨tid, hnone⟩
    · simp [hlen]
    · split
      · exact ⟨rfl, rfl⟩
      · split
        · rename_i h1 h2 h3 h4
          exfalso
          cases tid <;> simp_all
        · exact ⟨rfl, rfl⟩

/-- Witness for C4: both directions of the theorem applied at concrete
inputs — the four square trackers give a valid transform with all corner
identities present, and a three-tracker list is rejected with a null
matrix. -/
theorem homography_valid_requires_four_corners_witness :
    (4 ≤ squareTrackers.length ∧
      ∀ tid : TrackerID, (lookupTracker tid squareTrackers).isSome) ∧
    ((calculateHomography (squareTrackers.take 3)).isValid = false ∧
      (calculateHomography (squareTrackers.take 3)).homographyMatrix = none) :=
  ⟨(homography_valid_requires_four_corners squareTrackers).1 (by decide),
   (homography_valid_requires_four_corners (squareTrackers.take 3)).2
     (Or.inl (by decide))⟩

/-- Counterexample for C2: the guard in `calculateAlignment` counts all
currently listed trackers, not only the fresh ones.  With three trackers
that are all stale (zero fresh markers, so the claim's premise holds), the
function proceeds past the guard and reports the actual top-left offset
(-320,-240) instead of the trivial translation (0,0) that the claim
requires. -/
theorem alignment_stale_guard_counterexample :
    (staleTrio.filter fun t => decide ((10000 : ℚ) - t.lastSeen ≤ 2000)).length < 3 ∧
    (calculateAlignment sqrtTable axisAtan2Deg 640 480 200 200 10000
      staleTrio).translation = ⟨-320, -240⟩ ∧
    (⟨-320, -240⟩ : Point) ≠ (⟨0, 0⟩ : Point) := by
  refine ⟨by norm_num [staleTrio, List.filter], ?_, by decide⟩
  norm_num [calculateAlignment, staleTrio, overlayStale, overlayMissing,
    allGridPositions, notAlignedStatus, pointDistance, List.find?,
    List.filter, pointLocation]

/-- C2 (amended): for every tracker list with fewer than three entries in
total — stale trackers count toward the total, so this is the source's
guard rather than the claim's fresh-marker count — `calculateAlignment`
returns the not-aligned status with translation (0,0), rotation 0, scale 1,
and the missing list equal to the grid positions with no detected
tracker. -/
theorem alignment_few_trackers_trivial (sqrt : ℚ → ℚ) (atan2deg : ℚ → ℚ → ℚ)
    (canvasWidth canvasHeight targetWidth targetHeight currentTime : ℚ)
    (trackers : List OverlayTracker) (h : trackers.length < 3) :
    calculateAlignment sqrt atan2deg canvasWidth canvasHeight targetWidth
      targetHeight currentTime trackers =
      ⟨false, ⟨0, 0⟩, 0, 1, overlayMissing trackers,
        overlayStale currentTime trackers⟩ := by
  simp [calculateAlignment, h, notAlignedStatus]

/-- Witness for C2 (amended): the theorem applied to a single-tracker list,
with the missing and stale lists evaluated. -/
theorem alignment_few_trackers_trivial_witness :
    ([(⟨"TL", .topLeft, pointLocation ⟨5, 5⟩, ⟨5, 5⟩, 0⟩ : OverlayTracker)].length < 3) ∧
    calculateAlignment sqrtTable axisAtan2Deg 640 480 200 200 0
      [⟨"TL", .topLeft, pointLocation ⟨5, 5⟩, ⟨5, 5⟩, 0⟩] =
      ⟨false, ⟨0, 0⟩, 0, 1, [.topRight, .bottomLeft, .bottomRight], []⟩ :=
  ⟨by decide,
   (alignment_few_trackers_trivial sqrtTable axisAtan2Deg 640 480 200 200 0
      [⟨"TL", .topLeft, pointLocation ⟨5, 5⟩, ⟨5, 5⟩, 0⟩] (by decide)).trans
     (by norm_num [overlayMissing, overlayStale, allGridPositions]; decide)⟩

/-- C3: whenever `calculateAlignment` reports `isAligned = true`, the
translation components are within the 50 px tolerance, the rotation within
the 10° tolerance, the scale within 0.2 of 1, and both the missing and the
stale tracker lists are empty — the aligned flag is exactly the source's
conjunctive gate, so the flag being set forces every conjunct. -/
theorem aligned_implies_within_tolerances (sqrt : ℚ → ℚ)
    (atan2deg : ℚ → ℚ → ℚ)
    (canvasWidth canvasHeight targetWidth targetHeight currentTime : ℚ)
    (trackers : List OverlayTracker)
    (h : (calculateAlignment sqrt atan2deg canvasWidth canvasHeight
      targetWidth targetHeight currentTime trackers).isAligned = true) :
    |(calculateAlignment sqrt atan2deg canvasWidth canvasHeight targetWidth
        targetHeight currentTime trackers).translation.x| < 50 ∧
    |(calculateAlignment sqrt atan2deg canvasWidth canvasHeight targetWidth
        targetHeight currentTime trackers).translation.y| < 50 ∧
    |(calculateAlignment sqrt atan2deg canvasWidth canvasHeight targetWidth
        targetHeight currentTime trackers).rotation| < 10 ∧
    |(calculateAlignment sqrt atan2deg canvasWidth canvasHeight targetWidth
        targetHeight currentTime trackers).scale - 1| < 0.2 ∧
    (calculateAlignment sqrt atan2deg canvasWidth canvasHeight targetWidth
        targetHeight currentTime trackers).missingTrackers = [] ∧
    (calculateAlignment sqrt atan2deg canvasWidth canvasHeight targetWidth
        targetHeight currentTime trackers).staleTrackers = [] := by
  revert h
  unfold calculateAlignment
  split
  · intro h
    exact absurd h (by simp [notAlignedStatus])
  · split
    · intro h
      exact absurd h (by simp [notAlignedStatus])
    · intro h
      simp only [decide_eq_true_eq] at h
      exact h

/-- Witness for C3: a fully fresh, centered, axis-aligned four-tracker
configuration on a 640×480 canvas with a 200×200 target rectangle makes
the gate fire, and the theorem then yields all six tolerance facts. -/
theorem aligned_implies_within_tolerances_witness :
    |(calculateAlignment sqrtTable axisAtan2Deg 640 480 200 200 0
        alignedQuad).translation.x| < 50 ∧
    |(calculateAlignment sqrtTable axisAtan2Deg 640 480 200 200 0
        alignedQuad).translation.y| < 50 ∧
    |(calculateAlignment sqrtTable axisAtan2Deg 640 480 200 200 0
        alignedQuad).rotation| < 10 ∧
    |(calculateAlignment sqrtTable axisAtan2Deg 640 480 200 200 0
        alignedQuad).scale - 1| < 0.2 ∧
    (calculateAlignment sqrtTable axisAtan2Deg 640 480 200 200 0
        alignedQuad).missingTrackers = [] ∧
    (calculateAlignment sqrtTable axisAtan2Deg 640 480 200 200 0
        alignedQuad).staleTrackers = [] :=
  aligned_implies_within_tolerances sqrtTable axisAtan2Deg 640 480 200 200 0
    alignedQuad
    (by norm_num +decide [calculateAlignment, alignedQuad, overlayStale,
      overlayMissing, allGridPositions, pointDistance, sqrtTable, axisAtan2Deg,
      List.find?, List.filter, pointLocation])

/-- Counterexample for C5: the claim glosses the alignment-quality score as
"1.0 minus proportional penalties for missing and stale markers", but the
source zeroes the score whenever the status is not aligned.  For a
misaligned status with no missing and no stale markers, the claim's three
conditions all hold (literal quality 1 ≥ 0.8, no prior capture time, no
prior capture position) on an active incomplete session, yet the code
refuses to capture. -/
theorem capture_gate_quality_counterexample :
    defaultAutoCaptureConfig.minAlignmentQuality ≤
      claimAlignmentQuality misalignedCleanStatus ∧
    demoState.currentSession = some demoSession ∧
    demoSession.isComplete = false ∧
    demoSession.lastCaptureTime = none ∧
    demoState.lastCapturePosition = none ∧
    (processAlignment sqrtTable demoState misalignedCleanStatus []
        1000).shouldCapture = false := by
  refine ⟨?_, rfl, rfl, rfl, rfl, ?_⟩
  · norm_num [claimAlignmentQuality, misalignedCleanStatus,
      defaultAutoCaptureConfig]
  · norm_num [processAlignment, demoState, demoSession,
      calculateAlignmentQuality, misalignedCleanStatus,
      defaultAutoCaptureConfig]

/-- C5 (amended): for an active, incomplete session whose recorded capture
times are positive (as `Date.now()` values are), `processAlignment`
answers "capture" exactly when the source's alignment quality — zero when
not aligned, otherwise 1.0 minus the missing/stale penalties — reaches the
configured minimum, the elapsed time since any recorded last capture
reaches the configured spacing, and, whenever both a last capture position
and a current tracker centroid exist, their distance reaches the
configured movement threshold. -/
theorem capture_gate_iff (sqrt : ℚ → ℚ) (st : ManagerState)
    (alignmentStatus : ACAlignmentStatus) (trackers : List DetectedTracker)
    (now : ℚ) (session : ScanSession)
    (hsession : st.currentSession = some session)
    (hactive : session.isComplete = false)
    (hpositive : ∀ t, session.lastCaptureTime = some t → 0 < t) :
    (processAlignment sqrt st alignmentStatus trackers now).shouldCapture = true ↔
      (st.config.minAlignmentQuality ≤ calculateAlignmentQuality alignmentStatus ∧
       (∀ t, session.lastCaptureTime = some t →
          st.config.timeBetweenCaptures ≤ now - t) ∧
       (∀ lastPos currentPos, st.lastCapturePosition = some lastPos →
          estimateCurrentPosition trackers = some currentPos →
          st.config.movementThreshold ≤ calculateDistance sqrt currentPos lastPos)) := by
  unfold processAlignment
  rw [hsession]
  simp only [hactive, Bool.false_eq_true, if_false]
  by_cases hq : calculateAlignmentQuality alignmentStatus <
      st.config.minAlignmentQuality
  · rw [if_pos hq]
    exact iff_of_false (by simp) fun h => absurd h.1 (not_le.mpr hq)
  · rw [if_neg hq]
    have hqle := not_lt.mp hq
    cases hlt : session.lastCaptureTime with
    | some t =>
        have ht0 : (0 : ℚ) < t := hpositive t hlt
        by_cases htime : now - t < st.config.timeBetweenCaptures
        · have hblocked : (decide (t ≠ 0) && decide (now - t <
              st.config.timeBetweenCaptures)) = true := by
            simp [ht0.ne', htime]
          rw [if_pos hblocked]
          refine iff_of_false (by simp) fun h => ?_
          exact absurd (h.2.1 t rfl) (not_le.mpr htime)
        · have hopen : ¬((decide (t ≠ 0) && decide (now - t <
              st.config.timeBetweenCaptures)) = true) := by
            simp
            exact fun _ => not_lt.mp htime
          rw [if_neg hopen]
          have htime' : ∀ t', some t = some t' →
              st.config.timeBetweenCaptures ≤ now - t' := by
            intro t' ht'
            injection ht' with ht''
            rw [← ht'']
            exact not_lt.mp htime
          cases hlp : st.lastCapturePosition with
          | none =>
              cases hcp : estimateCurrentPosition trackers with
              | none =>
                  exact iff_of_true rfl
                    ⟨hqle, htime', fun a b hab => nomatch hab⟩
              | some c =>
                  exact iff_of_true rfl
                    ⟨hqle, htime', fun a b hab => nomatch hab⟩
          | some lastPos =>
              cases hcp : estimateCurrentPosition trackers with
              | none =>
                  exact iff_of_true rfl
                    ⟨hqle, htime', fun a b _ hb => nomatch hb⟩
              | some currentPos =>
                  by_cases hdist : calculateDistance sqrt currentPos lastPos <
                      st.config.movementThreshold
                  · refine iff_of_false (by simp [hdist]) fun h => ?_
                    exact absurd (h.2.2 lastPos currentPos rfl rfl)
                      (not_le.mpr hdist)
                  · refine iff_of_true (by simp [hdist]) ⟨hqle, htime', ?_⟩
                    intro a b ha hb
                    injection ha with ha'
                    injection hb with hb'
                    rw [← ha', ← hb']
                    exact not_lt.mp hdist
    | none =>
        rw [if_neg (by simp)]
        have htime' : ∀ t', (none : Option ℚ) = some t' →
            st.config.timeBetweenCaptures ≤ now - t' := fun t' h => nomatch h
        cases hlp : st.lastCapturePosition with
        | none =>
            cases hcp : estimateCurrentPosition trackers with
            | none =>
                exact iff_of_true rfl
                  ⟨hqle, htime', fun a b hab => nomatch hab⟩
            | some c =>
                exact iff_of_true rfl
                  ⟨hqle, htime', fun a b hab => nomatch hab⟩
        | some lastPos =>
            cases hcp : estimateCurrentPosition trackers with
            | none =>
                exact iff_of_true rfl
                  ⟨hqle, htime', fun a b _ hb => nomatch hb⟩
            | some currentPos =>
                by_cases hdist : calculateDistance sqrt currentPos lastPos <
                    st.config.movementThreshold
                · refine iff_of_false (by simp [hdist]) fun h => ?_
                  exact absurd (h.2.2 lastPos currentPos rfl rfl)
                    (not_le.mpr hdist)
                · refine iff_of_true (by simp [hdist]) ⟨hqle, htime', ?_⟩
                  intro a b ha hb
                  injection ha with ha'
                  injection hb with hb'
                  rw [← ha', ← hb']
                  exact not_lt.mp hdist

/-- Witness for C5: on a fresh session with an aligned clean status (quality
1 ≥ 0.8), no recorded capture time and no recorded capture position, the
gate theorem's right-hand side holds and the code indeed captures. -/
theorem capture_gate_iff_witness :
    (processAlignment sqrtTable demoState alignedCleanStatus []
        1000).shouldCapture = true :=
  (capture_gate_iff sqrtTable demoState alignedCleanStatus [] 1000 demoSession
      rfl rfl (fun t h => by simp [demoSession] at h)).mpr
    ⟨by norm_num [calculateAlignmentQuality, alignedCleanStatus, demoState,
        defaultAutoCaptureConfig],
     fun t h => by simp [demoSession] at h,
     fun lastPos currentPos hlp _ => by simp [demoState] at hlp⟩

/-- The slot-freezing step fails exactly when every slot is captured. -/
theorem captureFirstFree_eq_none_iff (inp : CaptureInput)
    (ps : List CapturePosition) :
    captureFirstFree inp ps = none ↔ ∀ p ∈ ps, p.captured = true := by
  induction ps with
  | nil => simp [captureFirstFree]
  | cons p rest ih =>
      by_cases hc : p.captured
      · simp [captureFirstFree, hc, ih]
      · simp [captureFirstFree, hc]

/-- A successful slot-freezing step keeps the list length, captures exactly
one additional slot, and leaves every already-captured slot untouched. -/
theorem captureFirstFree_spec (inp : CaptureInput) :
    ∀ ps ps', captureFirstFree inp ps = some ps' →
      ps'.length = ps.length ∧
      countCaptured ps' = countCaptured ps + 1 ∧
      ∀ (i : ℕ) (q : CapturePosition), ps[i]? = some q → q.captured = true →
        ps'[i]? = some q := by
  intro ps
  induction ps with
  | nil => intro ps' h; simp [captureFirstFree] at h
  | cons p rest ih =>
      intro ps' h
      by_cases hc : p.captured
      · rw [captureFirstFree, if_pos hc] at h
        cases hr : captureFirstFree inp rest with
        | none => rw [hr] at h; simp at h
        | some rest' =>
            rw [hr] at h
            simp at h
            obtain ⟨hlen, hcount, hkeep⟩ := ih rest' hr
            subst h
            refine ⟨by simp [hlen], ?_, ?_⟩
            · simp only [countCaptured, List.filter_cons, hc, if_pos]
              simp only [countCaptured] at hcount
              simp [hcount]
            · intro i q hget hcap
              cases i with
              | zero => simpa using hget
              | succ n =>
                  simp only [List.getElem?_cons_succ] at hget ⊢
                  exact hkeep n q hget hcap
      · rw [captureFirstFree, if_neg hc] at h
        simp only [Option.some.injEq] at h
        subst h
        refine ⟨by simp, ?_, ?_⟩
        · simp [countCaptured, List.filter_cons, hc]
        · intro i q hget hcap
          cases i with
          | zero =>
              simp only [List.getElem?_cons_zero, Option.some.injEq] at hget
              subst hget
              exact absurd hcap (by simp [hc])
          | succ n => simpa using hget

/-- The initial manager state satisfies the session invariant for the fixed
target count. -/
theorem startSession_inv (cfg : AutoCaptureConfig) (now : ℚ) :
    SessionInv optimalPositions.length (startSession cfg now) := by
  refine ⟨_, rfl, rfl, rfl, ?_, ?_⟩
  · show (0 : ℕ) = countCaptured optimalPositions
    decide
  · show false = decide (optimalPositions.length ≤ 0)
    decide

/-- One `executeCapture` call preserves the session invariant, increments
the completed count exactly when it reports success, and leaves the state
unchanged when it reports failure. -/
theorem executeCapture_step (n : ℕ) (st : ManagerState) (inp : CaptureInput)
    (h : SessionInv n st) :
    SessionInv n (executeCapture st inp).2 ∧
    sessionCompleted (executeCapture st inp).2 =
      sessionCompleted st + (if (executeCapture st inp).1 then 1 else 0) ∧
    ((executeCapture st inp).1 = false → (executeCapture st inp).2 = st) := by
  obtain ⟨s, hs, hlen, hneed, hcount, hdone⟩ := h
  unfold executeCapture
  rw [hs]
  dsimp only
  cases hcff : captureFirstFree inp s.positions with
  | none =>
      dsimp only
      exact ⟨⟨s, hs, hlen, hneed, hcount, hdone⟩,
        by simp [sessionCompleted, hs], fun _ => rfl⟩
  | some newPositions =>
      obtain ⟨hlen', hcount', _⟩ := captureFirstFree_spec inp s.positions
        newPositions hcff
      dsimp only
      refine ⟨?_, ?_, by simp⟩
      · refine ⟨_, rfl, ?_, ?_, ?_, ?_⟩
        · split <;> exact hlen'.trans hlen
        · split <;> exact hneed
        · split <;> (dsimp only; rw [hcount', ← hcount])
        · split
          · rename_i hge
            dsimp only at hge ⊢
            rw [hneed] at hge
            simp [hge]
          · rename_i hge
            dsimp only at hge ⊢
            rw [hneed] at hge
            have hlt : ¬(n ≤ s.capturesCompleted) :=
              fun hh => hge (Nat.le_succ_of_le hh)
            rw [hdone]
            simp [hlt, hge]
      · simp only [sessionCompleted, hs]
        split <;> simp

/-- Running any input sequence preserves the invariant and adds the number
of successful calls to the completed count. -/
theorem runCaptures_inv (n : ℕ) :
    ∀ (ins : List CaptureInput) (st : ManagerState), SessionInv n st →
      SessionInv n (runCaptures st ins).1 ∧
      sessionCompleted (runCaptures st ins).1 =
        sessionCompleted st + (runCaptures st ins).2 := by
  intro ins
  induction ins with
  | nil => intro st h; exact ⟨h, by simp [runCaptures]⟩
  | cons inp rest ih =>
      intro st h
      obtain ⟨hinv, hcompleted, _⟩ := executeCapture_step n st inp h
      obtain ⟨hinv', hcompleted'⟩ := ih (executeCapture st inp).2 hinv
      refine ⟨by simpa [runCaptures] using hinv', ?_⟩
      simp only [runCaptures]
      rw [hcompleted', hcompleted]
      cases (executeCapture st inp).1 <;> (simp; try omega)

/-- C6: starting a session creates the fixed six target slots; after any
sequence of `executeCapture` calls with `k` successes, the session is
complete exactly when `k` equals the number of target slots, a further
call on a complete session returns `false` and leaves the manager state
bit-for-bit unchanged, and no slot that is already captured is ever
replaced by a later call. -/
theorem scan_session_completes_exactly_once (cfg : AutoCaptureConfig)
    (t0 : ℚ) (ins : List CaptureInput) :
    ∃ s : ScanSession,
      (runCaptures (startSession cfg t0) ins).1.currentSession = some s ∧
      (s.isComplete = true ↔
        (runCaptures (startSession cfg t0) ins).2 = optimalPositions.length) ∧
      (s.isComplete = true → ∀ inp,
        executeCapture (runCaptures (startSession cfg t0) ins).1 inp =
          (false, (runCaptures (startSession cfg t0) ins).1)) ∧
      (∀ (inp : CaptureInput) (i : ℕ) (p : CapturePosition),
        s.positions[i]? = some p → p.captured = true →
        ∃ s2 : ScanSession,
          (executeCapture (runCaptures (startSession cfg t0) ins).1
            inp).2.currentSession = some s2 ∧ s2.positions[i]? = some p) := by
  obtain ⟨hinv, hcompleted⟩ :=
    runCaptures_inv optimalPositions.length ins (startSession cfg t0)
      (startSession_inv cfg t0)
  obtain ⟨s, hs, hlen, hneed, hcount, hdone⟩ := hinv
  have hstart : sessionCompleted (startSession cfg t0) = 0 := rfl
  rw [hstart, Nat.zero_add] at hcompleted
  have hk : s.capturesCompleted = (runCaptures (startSession cfg t0) ins).2 := by
    rw [← hcompleted]
    simp [sessionCompleted, hs]
  have hle : s.capturesCompleted ≤ optimalPositions.length := by
    rw [hcount, ← hlen]
    exact List.length_filter_le _ _
  refine ⟨s, hs, ?_, ?_, ?_⟩
  · rw [hdone, ← hk]
    simp only [decide_eq_true_eq]
    omega
  · intro hcomplete inp
    have hfull : s.capturesCompleted = optimalPositions.length := by
      rw [hdone] at hcomplete
      simp only [decide_eq_true_eq] at hcomplete
      omega
    have hflen : countCaptured s.positions = s.positions.length := by
      rw [← hcount, hfull, ← hlen]
    have hall : ∀ p ∈ s.positions, p.captured = true := by
      rw [← List.filter_length_eq_length]
      simpa [countCaptured] using hflen
    have hnone : captureFirstFree inp s.positions = none :=
      (captureFirstFree_eq_none_iff inp s.positions).mpr hall
    unfold executeCapture
    rw [hs]
    dsimp only
    rw [hnone]
  · intro inp i p hget hcap
    unfold executeCapture
    rw [hs]
    dsimp only
    cases hcff : captureFirstFree inp s.positions with
    | none => exact ⟨s, hs, hget⟩
    | some newPositions =>
        obtain ⟨_, _, hkeep⟩ := captureFirstFree_spec inp s.positions
          newPositions hcff
        dsimp only
        refine ⟨_, rfl, ?_⟩
        have hkept := hkeep i p hget hcap
        split <;> exact hkept

/-- Witness for C6: running seven identical capture calls on a fresh
session produces a session whose completion flag is set, via the theorem's
equivalence and the evaluated success count of six. -/
theorem scan_session_completes_exactly_once_witness :
    ∃ s : ScanSession,
      (runCaptures (startSession defaultAutoCaptureConfig 0)
        (List.replicate 7 demoInput)).1.currentSession = some s ∧
      s.isComplete = true := by
  obtain ⟨s, hs, hiff, hnoop, hkeep⟩ :=
    scan_session_completes_exactly_once defaultAutoCaptureConfig 0
      (List.replicate 7 demoInput)
  exact ⟨s, hs, hiff.mpr (by decide)⟩

/-- C7: consensus processing of a session that is not complete is a hard
failure — `processScanSession` throws (embedded as `Except.error` with the
source's message) instead of returning a degraded result; the embedding is
a pure function of the session, which the source never mutates (the check
throws before any other statement), so the failed call leaves the session
unchanged. -/
theorem incomplete_session_hard_failure (sqrt : ℚ → ℚ)
    (cfg : ProcessingConfig)
    (processImage : CapturePosition → Option ImageProcessingResult)
    (now : ℚ) (session : ScanSession)
    (h : session.isComplete = false) :
    processScanSession sqrt cfg processImage now session =
      Except.error "Scan session is not complete" := by
  simp [processScanSession, h]

/-- Witness for C7: a freshly started session is incomplete and the
processor rejects it with the hard error. -/
theorem incomplete_session_hard_failure_witness :
    demoSession.isComplete = false ∧
    processScanSession sqrtTable defaultProcessingConfig (fun _ => none) 0
      demoSession = Except.error "Scan session is not complete" :=
  ⟨rfl, incomplete_session_hard_failure sqrtTable defaultProcessingConfig
    (fun _ => none) 0 demoSession rfl⟩

/-- Every cluster emitted by the greedy consensus fold carries exactly the
position, variance and confidence computed by the source's three cluster
functions over its own supporting detections. -/
theorem consensus_cluster_fields (sqrt : ℚ → ℚ) (cfg : ProcessingConfig)
    (imageResults : List ImageProcessingResult) :
    ∀ c ∈ (performConsensusAnalysis sqrt cfg imageResults).clusteredCones,
      c.position = calculateWeightedPosition c.supportingDetections ∧
      c.positionVariance = calculatePositionVariance sqrt c.supportingDetections ∧
      c.confidence = calculateClusterConfidence sqrt c.supportingDetections := by
  have hstep : ∀ (allD : List DetectedCone)
      (acc : List ClusteredCone × List String) (d : DetectedCone),
      (∀ c ∈ acc.1,
        c.position = calculateWeightedPosition c.supportingDetections ∧
        c.positionVariance = calculatePositionVariance sqrt c.supportingDetections ∧
        c.confidence = calculateClusterConfidence sqrt c.supportingDetections) →
      ∀ c ∈ (consensusStep sqrt cfg allD acc d).1,
        c.position = calculateWeightedPosition c.supportingDetections ∧
        c.positionVariance = calculatePositionVariance sqrt c.supportingDetections ∧
        c.confidence = calculateClusterConfidence sqrt c.supportingDetections := by
    intro allD acc d hacc c hc
    unfold consensusStep at hc
    split at hc
    · exact hacc c hc
    · split at hc
      · exact hacc c hc
      · dsimp only at hc
        split at hc
        · rcases List.mem_append.mp hc with h | h
          · exact hacc c h
          · rw [List.mem_singleton] at h
            subst h
            exact ⟨rfl, rfl, rfl⟩
        · exact hacc c hc
  have hfold : ∀ (l : List DetectedCone) (allD : List DetectedCone)
      (acc : List ClusteredCone × List String),
      (∀ c ∈ acc.1,
        c.position = calculateWeightedPosition c.supportingDetections ∧
        c.positionVariance = calculatePositionVariance sqrt c.supportingDetections ∧
        c.confidence = calculateClusterConfidence sqrt c.supportingDetections) →
      ∀ c ∈ (l.foldl (consensusStep sqrt cfg allD) acc).1,
        c.position = calculateWeightedPosition c.supportingDetections ∧
        c.positionVariance = calculatePositionVariance sqrt c.supportingDetections ∧
        c.confidence = calculateClusterConfidence sqrt c.supportingDetections := by
    intro l
    induction l with
    | nil => exact fun allD acc h => h
    | cons d rest ih =>
        intro allD acc h
        exact ih allD _ (hstep allD acc d h)
  intro c hc
  unfold performConsensusAnalysis at hc
  exact hfold _ _ ([], []) (by simp) c hc

/-- The source's weighted-position fold equals the claim's
confidence-weighted average of the members' surface positions. -/
theorem calculateWeightedPosition_eq_spec (detections : List DetectedCone) :
    calculateWeightedPosition detections =
      specWeightedAveragePosition detections := by
  have hfold : ∀ (l : List DetectedCone) (a b c : ℚ),
      l.foldl
        (fun (acc : ℚ × ℚ × ℚ) d =>
          match d.surfacePosition with
          | none => acc
          | some pos =>
              (acc.1 + d.confidence, acc.2.1 + pos.x * d.confidence,
               acc.2.2 + pos.y * d.confidence))
        (a, b, c) =
      (a + ((l.filterMap fun d => d.surfacePosition.map fun p => (p, d.confidence)).map
          fun m => m.2).sum,
       b + ((l.filterMap fun d => d.surfacePosition.map fun p => (p, d.confidence)).map
          fun m => m.1.x * m.2).sum,
       c + ((l.filterMap fun d => d.surfacePosition.map fun p => (p, d.confidence)).map
          fun m => m.1.y * m.2).sum) := by
    intro l
    induction l with
    | nil => simp
    | cons d rest ih =>
        intro a b c
        cases hd : d.surfacePosition with
        | none => simp [List.foldl_cons, hd, ih]
        | some pos =>
            simp only [List.foldl_cons, hd, List.filterMap_cons, Option.map_some',
              List.map_cons, List.sum_cons, ih, Prod.mk.injEq]
            refine ⟨by ring, by ring, by ring⟩
  unfold calculateWeightedPosition specWeightedAveragePosition
  rw [hfold detections 0 0 0]
  simp

/-- The source's variance equals the mean distance of the members' surface
positions from their unweighted centroid (zero when fewer than two
positions exist). -/
theorem calculatePositionVariance_eq_spec (sqrt : ℚ → ℚ)
    (detections : List DetectedCone) :
    calculatePositionVariance sqrt detections =
      if (conePositions detections).length < 2 then 0
      else specMeanDistanceFromCentroid sqrt (conePositions detections) := by
  unfold calculatePositionVariance specMeanDistanceFromCentroid
  by_cases h1 : detections.length < 2
  · have h2 : (conePositions detections).length < 2 := by
      have hle := List.length_filterMap_le (fun d => d.surfacePosition) detections
      simp only [conePositions]
      omega
    rw [if_pos h1, if_pos h2]
  · rw [if_neg h1]

/-- The source's cluster confidence equals the amended claim's formula on
every detection list (for the empty list both sides are zero, since empty
sums and rational division by zero both vanish). -/
theorem calculateClusterConfidence_eq_spec (sqrt : ℚ → ℚ)
    (detections : List DetectedCone) :
    calculateClusterConfidence sqrt detections =
      specClusterConfidence sqrt detections := by
  unfold calculateClusterConfidence specClusterConfidence
  cases detections with
  | nil => norm_num [calculatePositionVariance]
  | cons d rest => rw [if_neg (by simp)]

/-- Counterexample for C8: on an accepted three-member cluster with unequal
confidence weights (two members at (0,0) with weight 1/2, one at (9,0)
with weight 1), the reported variance is 4 — the mean distance from the
unweighted centroid (3,0) — while the mean distance from the
confidence-weighted centroid (9/2,0), which the claim names, is 9/2. -/
theorem consensus_variance_counterexample :
    (performConsensusAnalysis sqrtTable defaultProcessingConfig
        [mkImageResult cxCones]).clusteredCones.map
      (fun c => (c.supportingDetections, c.positionVariance)) =
      [(cxCones, 4)] ∧
    specMeanDistanceFromWeightedCentroid sqrtTable cxCones = 9 / 2 ∧
    (4 : ℚ) ≠ 9 / 2 := by
  refine ⟨?_, ?_, by norm_num⟩
  · norm_num +decide [performConsensusAnalysis, consensusStep, cxCones,
      mkImageResult, defaultProcessingConfig, calculateWeightedPosition,
      calculateClusterConfidence, calculatePositionVariance, conePositions,
      calculateDistance, sqrtTable, List.filter_cons, List.filter_nil,
      List.filterMap_cons, List.filterMap_nil, List.foldl_cons, List.foldl_nil,
      List.map_cons, List.map_nil, List.sum_cons, List.sum_nil,
      List.flatMap_cons, List.flatMap_nil, List.mem_cons, List.length_cons,
      Option.map_some']
  · norm_num [specMeanDistanceFromWeightedCentroid, specWeightedAveragePosition,
      conePositions, cxCones, calculateDistance, sqrtTable,
      List.filterMap_cons, List.filterMap_nil, List.map_cons, List.map_nil,
      List.sum_cons, List.sum_nil, Option.map_some']

/-- C8 (amended): every cluster accepted by the consensus analysis reports
the confidence-weighted average of its members' surface positions as its
position, and the mean distance of those positions from their *unweighted*
arithmetic centroid (not the weighted one) as its variance, with variance
zero when fewer than two positions exist. -/
theorem consensus_position_and_variance (sqrt : ℚ → ℚ)
    (cfg : ProcessingConfig) (imageResults : List ImageProcessingResult) :
    ∀ c ∈ (performConsensusAnalysis sqrt cfg imageResults).clusteredCones,
      c.position = specWeightedAveragePosition c.supportingDetections ∧
      c.positionVariance =
        (if (conePositions c.supportingDetections).length < 2 then 0
         else specMeanDistanceFromCentroid sqrt
           (conePositions c.supportingDetections)) := by
  intro c hc
  obtain ⟨hpos, hvar, _⟩ := consensus_cluster_fields sqrt cfg imageResults c hc
  exact ⟨hpos.trans (calculateWeightedPosition_eq_spec _),
    hvar.trans (calculatePositionVariance_eq_spec _ _)⟩

/-- Witness for C8 (amended): the theorem applied to the concrete accepted
cluster over `cxCones`. -/
theorem consensus_position_and_variance_witness :
    cxCluster.position = specWeightedAveragePosition cxCluster.supportingDetections ∧
    cxCluster.positionVariance =
      (if (conePositions cxCluster.supportingDetections).length < 2 then 0
       else specMeanDistanceFromCentroid sqrtTable
         (conePositions cxCluster.supportingDetections)) :=
  consensus_position_and_variance sqrtTable defaultProcessingConfig
    [mkImageResult cxCones] cxCluster
    (by norm_num +decide [performConsensusAnalysis, consensusStep, cxCones,
      mkImageResult, defaultProcessingConfig, calculateWeightedPosition,
      calculateClusterConfidence, calculatePositionVariance, conePositions,
      calculateDistance, sqrtTable, cxCluster, min_def, List.filter_cons,
      List.filter_nil, List.filterMap_cons, List.filterMap_nil,
      List.foldl_cons, List.foldl_nil, List.map_cons, List.map_nil,
      List.sum_cons, List.sum_nil, List.flatMap_cons, List.flatMap_nil,
      List.mem_cons, List.length_cons, Option.map_some'])

/-- The tabulated square-root evaluator returns the exact square root on
every input it tabulates and zero elsewhere. -/
theorem sqrtTable_sound (q : ℚ) :
    sqrtTable q * sqrtTable q = q ∨ sqrtTable q = 0 := by
  unfold sqrtTable
  split_ifs with h1 h2 h3 h4 h5 h6 <;>
    first
      | (left; rw [h1]; norm_num)
      | (left; rw [h2]; norm_num)
      | (left; rw [h3]; norm_num)
      | (left; rw [h4]; norm_num)
      | (left; rw [h5]; norm_num)
      | (left; rw [h6]; norm_num)
      | (right; rfl)

/-- The tabulated square-root evaluator is nonnegative, as `Math.sqrt`
is. -/
theorem sqrtTable_nonneg (q : ℚ) : 0 ≤ sqrtTable q := by
  unfold sqrtTable
  split_ifs <;> norm_num

/-- The source's variance is nonnegative whenever the square-root
evaluator is. -/
theorem calculatePositionVariance_nonneg (sqrt : ℚ → ℚ)
    (hsqrt : ∀ q, 0 ≤ sqrt q) (detections : List DetectedCone) :
    0 ≤ calculatePositionVariance sqrt detections := by
  unfold calculatePositionVariance
  split
  · exact le_rfl
  · dsimp only
    split
    · exact le_rfl
    · refine div_nonneg (List.sum_nonneg ?_) (Nat.cast_nonneg _)
      intro x hx
      rw [List.mem_map] at hx
      obtain ⟨p, _, rfl⟩ := hx
      exact hsqrt _

/-- Counterexample for C9: the accepted four-member cluster of coincident
full-confidence detections gets confidence 1 + 0.3 - 0 = 13/10, which lies
outside [0,1] — the source clamps only from below. -/
theorem consensus_confidence_exceeds_one :
    (performConsensusAnalysis sqrtTable defaultProcessingConfig
        [mkImageResult quadCones]).clusteredCones.map (fun c => c.confidence) =
      [13/10] ∧
    ¬((13 : ℚ)/10 ≤ 1) := by
  refine ⟨?_, by norm_num⟩
  norm_num +decide [performConsensusAnalysis, consensusStep, quadCones,
    mkImageResult, defaultProcessingConfig, calculateWeightedPosition,
    calculateClusterConfidence, calculatePositionVariance, conePositions,
    calculateDistance, sqrtTable, min_def, max_def, List.filter_cons,
    List.filter_nil, List.filterMap_cons, List.filterMap_nil, List.foldl_cons,
    List.foldl_nil, List.map_cons, List.map_nil, List.sum_cons, List.sum_nil,
    List.flatMap_cons, List.flatMap_nil, List.mem_cons, List.length_cons,
    Option.map_some']

/-- C9 (amended): every accepted cluster's confidence equals the mean
member confidence plus the consensus bonus `min(count/4, 0.3)` minus the
variance penalty `min(variance/50, 0.2)`, floored at zero.  The value is
always nonnegative, and — for nonnegative member confidences and a
nonnegative square-root evaluator — at most the mean plus 0.3; it is NOT
clamped to [0,1] from above. -/
theorem consensus_cluster_confidence_formula (sqrt : ℚ → ℚ)
    (cfg : ProcessingConfig) (imageResults : List ImageProcessingResult)
    (hsqrt : ∀ q, 0 ≤ sqrt q) :
    ∀ c ∈ (performConsensusAnalysis sqrt cfg imageResults).clusteredCones,
      c.confidence = specClusterConfidence sqrt c.supportingDetections ∧
      0 ≤ c.confidence ∧
      ((∀ d ∈ c.supportingDetections, 0 ≤ d.confidence) →
        c.confidence ≤
          (c.supportingDetections.map fun d => d.confidence).sum /
            (c.supportingDetections.length : ℚ) + 3/10) := by
  intro c hc
  obtain ⟨_, _, hconf⟩ := consensus_cluster_fields sqrt cfg imageResults c hc
  have heq : c.confidence = specClusterConfidence sqrt c.supportingDetections :=
    hconf.trans (calculateClusterConfidence_eq_spec _ _)
  refine ⟨heq, ?_, ?_⟩
  · rw [heq]
    exact le_max_left 0 _
  · intro hnn
    rw [heq]
    unfold specClusterConfidence
    have havg : (0 : ℚ) ≤
        (c.supportingDetections.map fun d => d.confidence).sum /
          (c.supportingDetections.length : ℚ) := by
      refine div_nonneg (List.sum_nonneg ?_) (Nat.cast_nonneg _)
      intro x hx
      rw [List.mem_map] at hx
      obtain ⟨d, hd, rfl⟩ := hx
      exact hnn d hd
    have hbonus : min ((c.supportingDetections.length : ℚ) / 4) 0.3 ≤ 3/10 := by
      refine le_trans (min_le_right _ _) (by norm_num)
    have hpen : (0 : ℚ) ≤
        min (calculatePositionVariance sqrt c.supportingDetections / 50) 0.2 := by
      refine le_min ?_ (by norm_num)
      exact div_nonneg (calculatePositionVariance_nonneg sqrt hsqrt _) (by norm_num)
    refine max_le ?_ ?_
    · linarith
    · linarith

/-- Witness for C9 (amended): the theorem applied to the concrete accepted
cluster over `quadCones`, with the nonnegativity side conditions
discharged. -/
theorem consensus_cluster_confidence_formula_witness :
    quadCluster.confidence =
      specClusterConfidence sqrtTable quadCluster.supportingDetections ∧
    0 ≤ quadCluster.confidence ∧
    quadCluster.confidence ≤
      (quadCluster.supportingDetections.map fun d => d.confidence).sum /
        (quadCluster.supportingDetections.length : ℚ) + 3/10 := by
  obtain ⟨h1, h2, h3⟩ :=
    consensus_cluster_confidence_formula sqrtTable defaultProcessingConfig
      [mkImageResult quadCones] sqrtTable_nonneg quadCluster
      (by norm_num +decide [performConsensusAnalysis, consensusStep, quadCones,
        mkImageResult, defaultProcessingConfig, calculateWeightedPosition,
        calculateClusterConfidence, calculatePositionVariance, conePositions,
        calculateDistance, sqrtTable, quadCluster, min_def, max_def,
        List.filter_cons, List.filter_nil, List.filterMap_cons,
        List.filterMap_nil, List.foldl_cons, List.foldl_nil, List.map_cons,
        List.map_nil, List.sum_cons, List.sum_nil, List.flatMap_cons,
        List.flatMap_nil, List.mem_cons, List.length_cons, Option.map_some'])
  refine ⟨h1, h2, h3 ?_⟩
  intro d hd
  simp only [quadCluster, quadCones, List.mem_cons, List.not_mem_nil,
    or_false] at hd
  rcases hd with rfl | rfl | rfl | rfl <;> norm_num

/-- C10: `detectCircles` returns the scanned candidates sorted by
non-increasing confidence and truncated to at most 10 entries; candidates
beyond the top 10 are dropped regardless of their confidence, since the
result is literally the 10-prefix of the descending sort of everything the
scan found. -/
theorem detectCircles_top_ten_sorted (calcConf : ℤ → ℤ → ℤ → ℚ)
    (sqrt : ℚ → ℚ) (params : ConeDetectionParams) (width height : ℤ) :
    (detectCircles calcConf sqrt params width height).length ≤ 10 ∧
    List.Pairwise (fun a b => b.confidence ≤ a.confidence)
      (detectCircles calcConf sqrt params width height) ∧
    detectCircles calcConf sqrt params width height =
      ((detectCirclesFound calcConf sqrt params width height).mergeSort
        fun a b => decide (b.confidence ≤ a.confidence)).take 10 := by
  refine ⟨?_, ?_, rfl⟩
  · unfold detectCircles
    exact List.length_take_le 10 _
  · unfold detectCircles
    have hsorted := @List.sorted_mergeSort Circle
      (fun a b : Circle => decide (b.confidence ≤ a.confidence))
      (fun a b c hab hbc => by
        simp only [decide_eq_true_eq] at hab hbc ⊢
        exact le_trans hbc hab)
      (fun a b => by
        simp only [Bool.or_eq_true, decide_eq_true_eq]
        exact le_total b.confidence a.confidence)
      (detectCirclesFound calcConf sqrt params width height)
    have htake := hsorted.sublist (List.take_sublist 10 _)
    exact htake.imp fun h => of_decide_eq_true h

end EzSnap
